import Mathlib

/-!
Verification development for the pkg revival hybrid build system.

The definitions below are a shallow embedding of the TypeScript sources:
`node-support` (capability model, target validator, strategy tables),
`pkg-fetch-extended` (extended version resolver), `sea-builder`
(native SEA assembly pipeline) and `hybrid-builder` (orchestrator).
External effects (filesystem, spawned processes) are modelled by explicit
environment records; machine behaviour such as JavaScript `parseInt`
is modelled with `Option Int` (`none` standing for `NaN`).
-/

/-! ## String utilities modelling the JavaScript primitives used by the code -/

/-- Does the list `l` start with the pattern `pat`? (used to model
`String.prototype.startsWith` and `/^node/` tests). -/
def listStartsWith (pat l : List Char) : Bool :=
  match pat, l with
  | [], _ => true
  | _ :: _, [] => false
  | p :: ps, c :: cs => p == c && listStartsWith ps cs

/-- Remove the first occurrence of `pat` from `l`; identity when `pat`
does not occur. Models JavaScript `String.prototype.replace(pat, '')`
with a plain-string pattern (which replaces only the first occurrence). -/
def removeFirstOcc (pat : List Char) : List Char → List Char
  | [] => []
  | c :: cs =>
    if listStartsWith pat (c :: cs) then (c :: cs).drop pat.length
    else c :: removeFirstOcc pat cs

/-- JavaScript `s.replace(pat, '')` for a plain-string pattern. -/
def jsReplaceOnce (pat s : String) : String :=
  String.mk (removeFirstOcc pat.toList s.toList)

/-- `strStartsWith s pre` models JavaScript `s.startsWith(pre)` / `/^pre/.test(s)`. -/
def strStartsWith (s pre : String) : Bool :=
  listStartsWith pre.toList s.toList

/-- Accumulate the leading decimal digits of a character list. -/
def parseDigitsAux (acc : Nat) : List Char → Nat
  | [] => acc
  | c :: cs => if c.isDigit then parseDigitsAux (acc * 10 + (c.toNat - 48)) cs else acc

/-- JavaScript `parseInt(s, 10)`: skip leading whitespace, optional sign,
then read the leading run of decimal digits; `none` models `NaN`
(when no digit follows). -/
def jsParseInt (s : String) : Option Int :=
  let l := s.toList.dropWhile Char.isWhitespace
  let signAndRest : Bool × List Char :=
    match l with
    | '-' :: rest => (true, rest)
    | '+' :: rest => (false, rest)
    | _ => (false, l)
  match signAndRest.2 with
  | [] => none
  | c :: _ =>
    if c.isDigit then
      let n : Nat := parseDigitsAux 0 signAndRest.2
      if signAndRest.1 then some (-(n : Int)) else some (n : Int)
    else none

/-- Index of the last occurrence of `c` in `l`, if any. -/
def lastIndexOfChar (c : Char) : List Char → Option Nat
  | [] => none
  | x :: xs =>
    match lastIndexOfChar c xs with
    | some i => some (i + 1)
    | none => if x == c then some 0 else none

/-- POSIX `path.dirname`. -/
def dirnameStr (s : String) : String :=
  match lastIndexOfChar '/' s.toList with
  | none => "."
  | some 0 => "/"
  | some i => String.mk (s.toList.take i)

/-- POSIX `path.basename` without an extension argument. -/
def basenameRawStr (s : String) : String :=
  match lastIndexOfChar '/' s.toList with
  | none => s
  | some i => String.mk (s.toList.drop (i + 1))

/-- Does `s` end with `suf`? -/
def strEndsWith (s suf : String) : Bool :=
  listStartsWith suf.toList.reverse s.toList.reverse

/-- POSIX `path.extname`. -/
def extnameStr (s : String) : String :=
  let b := (basenameRawStr s).toList
  match lastIndexOfChar '.' b with
  | none => ""
  | some 0 => ""
  | some i => String.mk (b.drop i)

/-- POSIX `path.basename(s, ext)`: the raw basename with the extension
stripped when it is a proper suffix. -/
def basenameStr (s ext : String) : String :=
  let b := basenameRawStr s
  if ext != "" && ext != b && strEndsWith b ext then
    String.mk (b.toList.take (b.toList.length - ext.toList.length))
  else b

/-- POSIX `path.join` for the two-argument uses in the sources. -/
def pathJoin (a b : String) : String :=
  if a == "" then b else a ++ "/" ++ b

/-- JavaScript `Array.prototype.join(sep)` / template list joining. -/
def strJoin (sep : String) : List String → String
  | [] => ""
  | [x] => x
  | x :: y :: rest => x ++ sep ++ strJoin sep (y :: rest)

/-! ## node-support: capability model, validator, strategy tables -/

/-- `EXTENDED_ABI_MAPPING` from node-support: ABI tag to node range. -/
def EXTENDED_ABI_MAPPING : List (String × String) :=
  [("m14", "node0.12"), ("m46", "node4"), ("m47", "node5"), ("m48", "node6"),
   ("m51", "node7"), ("m57", "node8"), ("m59", "node9"), ("m64", "node10"),
   ("m67", "node11"), ("m72", "node12"), ("m79", "node13"), ("m83", "node14"),
   ("m88", "node15"), ("m93", "node16"), ("m102", "node17"), ("m108", "node18"),
   ("m111", "node19"), ("m115", "node20"), ("m120", "node21"), ("m127", "node22"),
   ("m131", "node23"), ("m137", "node24")]

/-- Node.js versions that support SEA (`SEA_SUPPORTED_VERSIONS`). -/
def SEA_SUPPORTED_VERSIONS : List String :=
  ["node19", "node20", "node21", "node22", "node23", "node24"]

/-- Node.js versions with stable SEA support (`SEA_STABLE_VERSIONS`). -/
def SEA_STABLE_VERSIONS : List String :=
  ["node21", "node22", "node23", "node24"]

structure NodeVersionInfo where
  version : String
  abi : Int
  supportsSEA : Bool
  stableSEA : Bool
  isSupported : Bool
deriving DecidableEq, Repr

/-- `getNodeVersionInfo` from node-support. -/
def getNodeVersionInfo (nodeRange : String) : NodeVersionInfo :=
  let version := if strStartsWith nodeRange "node" then nodeRange else "node" ++ nodeRange
  let versionNumber := jsParseInt (jsReplaceOnce "node" version)
  let abi : Int :=
    match EXTENDED_ABI_MAPPING.find? (fun p => p.2 == version) with
    | some p => (jsParseInt (jsReplaceOnce "m" p.1)).getD 0
    | none => 0
  { version := version
    abi := abi
    supportsSEA := SEA_SUPPORTED_VERSIONS.contains version
    stableSEA := SEA_STABLE_VERSIONS.contains version
    isSupported :=
      match versionNumber with
      | some n => decide (8 ≤ n ∧ n ≤ 24)
      | none => false }

/-- `supportsSEA` from node-support. -/
def supportsSEAFn (nodeRange : String) : Bool :=
  (getNodeVersionInfo nodeRange).supportsSEA

/-- `hasStableSEA` from node-support. -/
def hasStableSEA (nodeRange : String) : Bool :=
  (getNodeVersionInfo nodeRange).stableSEA

structure SEACapabilities where
  hasNativeSEA : Bool
  supportsAssets : Bool
  supportsSnapshot : Bool
  supportsCodeCache : Bool
  requiresPostject : Bool
deriving DecidableEq, Repr

/-- `getSEACapabilities` from node-support. -/
def getSEACapabilities (nodeRange : String) : SEACapabilities :=
  let info := getNodeVersionInfo nodeRange
  let versionNumber := jsParseInt (jsReplaceOnce "node" info.version)
  if info.supportsSEA = false then
    { hasNativeSEA := false, supportsAssets := false, supportsSnapshot := false
      supportsCodeCache := false, requiresPostject := false }
  else
    let ge20 : Bool := match versionNumber with
      | some n => decide (20 ≤ n)
      | none => false
    { hasNativeSEA := true
      supportsAssets := ge20
      supportsSnapshot := ge20
      supportsCodeCache := ge20
      requiresPostject := true }

/-- `enhancedIsValidNodeRange` from node-support. -/
def enhancedIsValidNodeRange (nodeRange : String) : Bool :=
  if nodeRange == "latest" then true
  else if (strStartsWith nodeRange "node") = false then false
  else
    match jsParseInt (jsReplaceOnce "node" nodeRange) with
    | some n => decide (8 ≤ n ∧ n ≤ 24)
    | none => false

inductive BuildStrategyKind where
  | sea
  | traditional
  | hybrid
deriving DecidableEq, Repr, BEq

structure StrategyOpts where
  crossCompile : Option Bool
  hasComplexRequires : Option Bool
  hasAssets : Option Bool
deriving DecidableEq, Repr

/-- `getBuildStrategy` from node-support (destructuring defaults applied
exactly as in the source). -/
def getBuildStrategy (nodeRange : String) (opts : StrategyOpts) : BuildStrategyKind :=
  let info := getNodeVersionInfo nodeRange
  let crossCompile := opts.crossCompile.getD false
  let hasComplexRequires := opts.hasComplexRequires.getD false
  let _hasAssets := opts.hasAssets.getD false
  if info.isSupported = false then .traditional
  else if crossCompile then .traditional
  else if hasComplexRequires then .traditional
  else if info.stableSEA && !hasComplexRequires then .sea
  else if info.supportsSEA then .hybrid
  else .traditional

structure Target where
  nodeRange : String
  platform : String
  arch : String
deriving DecidableEq, Repr

structure ValidationResult where
  valid : Bool
  reason : Option String
deriving DecidableEq, Repr

/-- Supported platform set from `validateTarget`. -/
def supportedPlatforms : List String :=
  ["linux", "macos", "win", "alpine", "linuxstatic"]

/-- Supported architecture set from `validateTarget`. -/
def supportedArchs : List String :=
  ["x64", "arm64", "x86"]

/-- `validateTarget` from node-support. -/
def validateTarget (target : Target) : ValidationResult :=
  let info := getNodeVersionInfo target.nodeRange
  if info.isSupported = false then
    { valid := false
      reason := some ("Node.js version " ++ target.nodeRange ++
        " is not supported. Supported versions: 8-24") }
  else if (supportedPlatforms.contains target.platform) = false then
    { valid := false
      reason := some ("Platform " ++ target.platform ++
        " is not supported. Supported platforms: " ++ strJoin ", " supportedPlatforms) }
  else if (supportedArchs.contains target.arch) = false then
    { valid := false
      reason := some ("Architecture " ++ target.arch ++
        " is not supported. Supported architectures: " ++ strJoin ", " supportedArchs) }
  else
    { valid := true, reason := none }

/-! ## pkg-fetch-extended: extended version resolver -/

/-- `EXTENDED_NODE_VERSIONS` from pkg-fetch-extended. -/
def EXTENDED_NODE_VERSIONS : List (String × String) :=
  [("node20", "20.11.1"), ("node21", "21.7.3"), ("node22", "22.0.0")]

/-- `ExtendedPkgFetch.isExtendedVersion` / `requiresExtendedSupport`:
membership in the keys of `EXTENDED_NODE_VERSIONS`. -/
def isExtendedVersion (nodeRange : String) : Bool :=
  (EXTENDED_NODE_VERSIONS.map Prod.fst).contains nodeRange

/-- The fixed `fallbackMap` inside `fallbackToClosestVersion`. -/
def fallbackMap : List (String × String) :=
  [("node20", "node18"), ("node21", "node18"), ("node22", "node18")]

/-- First fallback entry for a version, mirroring `fallbackMap[nodeRange]`. -/
def lookupFallback (nodeRange : String) : Option String :=
  (fallbackMap.find? (fun p => p.1 == nodeRange)).map Prod.snd

inductive FetchError where
  | fallbackExhausted (msg : String)
  | notSupported (msg : String)
deriving DecidableEq, Repr

/-- `ExtendedPkgFetch.fallbackToClosestVersion`: look the version up in the
fixed fallback table; with no entry throw the fallback-exhausted error,
otherwise delegate to the legacy fetch mechanism (`legacyNeed`). -/
def fallbackToClosestVersion (legacyNeed : String → String) (nodeRange : String) :
    Except FetchError String :=
  match lookupFallback nodeRange with
  | none => .error (.fallbackExhausted ("No fallback version available for " ++ nodeRange))
  | some fb => .ok (legacyNeed fb)

/-- Observation: did the resolver fail with the fallback-exhausted error? -/
def isFallbackExhausted : Except FetchError String → Bool
  | .error (.fallbackExhausted _) => true
  | _ => false

/-! ## sea-builder: native SEA assembly pipeline -/

structure SEAConfig where
  main : String
  output : String
  disableExperimentalSEAWarning : Option Bool
  useSnapshot : Option Bool
  useCodeCache : Option Bool
  assets : Option (List (String × String))
deriving DecidableEq, Repr

structure SEABuildOptions where
  entrypoint : String
  output : String
  nodeVersion : String
  platform : String
  arch : String
  assets : Option (List String)
  useSnapshot : Option Bool
  useCodeCache : Option Bool
  signBinary : Option Bool
deriving DecidableEq, Repr

structure SEABuildResult where
  success : Bool
  outputPath : String
  size : Nat
  buildTime : Nat
  warnings : List String
  errors : List String
deriving DecidableEq, Repr

/-- Environment of one `SEABuilder` run: the process working directory,
the filesystem and path primitives the builder consults, and the outcome
of each fallible external operation of the pipeline (spawned tools and
filesystem calls). `none` in an `Option String` outcome field means the
operation succeeds; `some msg` means it throws with message `msg`. -/
structure SEAEnv where
  cwd : String
  helpHasSEAConfigFlag : Bool
  fsExists : String → Bool
  relative : String → String → String
  writeFileErr : Option String
  blobExitCode : Int
  blobStderr : String
  copyErr : Option String
  postjectExitCode : Int
  postjectStderr : String
  renameErr : Option String
  statErr : Option String
  statSize : Nat
  rmErr : Option String

/-- Filesystem state tracked by the pipeline model: whether the builder's
temporary working directory currently exists. -/
structure BuilderState where
  tempDirExists : Bool
deriving DecidableEq, Repr

/-- `SEABuilder.cleanup`: `fs.rm(tempDir, recursive, force)` wrapped in a
catch that ignores cleanup errors. When `fs.rm` succeeds the temporary
working directory is removed; when it fails (`env.rmErr = some _`) the
error is swallowed and the directory is left as it was. -/
def cleanupState (env : SEAEnv) (st : BuilderState) : BuilderState :=
  match env.rmErr with
  | some _ => st
  | none => { st with tempDirExists := false }

/-- The `SEABuilder` constructor's temp directory:
`path.join(process.cwd(), '.pkg-temp')`, fixed per builder. -/
def seaBuilderTempDir (cwd : String) : String :=
  pathJoin cwd ".pkg-temp"

/-- The temporary working directory one invocation of `SEABuilder.build`
uses: the builder's constructor-assigned directory, independent of the
build options. -/
def tempDirUsed (cwd : String) (_opts : SEABuildOptions) : String :=
  seaBuilderTempDir cwd

/-- `SEABuilder.canUseSEA`: stable-SEA version check plus the probe that
`node --help` advertises `--experimental-sea-config`. -/
def canUseSEA (env : SEAEnv) (nodeVersion : String) : Bool :=
  hasStableSEA nodeVersion && env.helpHasSEAConfigFlag

/-- `SEABuilder.convertAssetsToSEAFormat`: each declared asset that exists
on disk is mapped from its cwd-relative key; missing ones are skipped. -/
def convertAssetsToSEAFormat (env : SEAEnv) : List String → List (String × String)
  | [] => []
  | a :: rest =>
    if env.fsExists a then (env.relative env.cwd a, a) :: convertAssetsToSEAFormat env rest
    else convertAssetsToSEAFormat env rest

/-- `SEABuilder.createSEAConfig`: the configuration record of pipeline
step 2 (pure content; persisting it to disk is a separate step of the
pipeline model). -/
def createSEAConfig (env : SEAEnv) (tempDir : String) (opts : SEABuildOptions) : SEAConfig :=
  let capabilities := getSEACapabilities opts.nodeVersion
  let config : SEAConfig :=
    { main := opts.entrypoint
      output := pathJoin tempDir "sea-prep.blob"
      disableExperimentalSEAWarning := some true
      useSnapshot := none
      useCodeCache := none
      assets := none }
  let config :=
    if capabilities.supportsSnapshot && (opts.useSnapshot == some true) then
      { config with useSnapshot := some true }
    else config
  let config :=
    if capabilities.supportsCodeCache && !(opts.useCodeCache == some false) then
      { config with useCodeCache := some true }
    else config
  let config :=
    if capabilities.supportsAssets && opts.assets.isSome then
      { config with assets := some (convertAssetsToSEAFormat env (opts.assets.getD [])) }
    else config
  config

inductive SEAErr where
  | capability (msg : String)
  | tool (msg : String)
  | io (msg : String)
deriving DecidableEq, Repr

/-- The message carried by a pipeline error, as pushed onto `errors`. -/
def SEAErr.message : SEAErr → String
  | .capability m => m
  | .tool m => m
  | .io m => m

/-- The try-block of `SEABuilder.build`: capability check, temp directory
creation, config emission, blob generation, binary copy, signature
removal, blob injection, optional signing, relocation and measurement,
threading the filesystem state and short-circuiting at the first throw.
Signature removal and signing never throw (their tool results are ignored
or caught in the source). -/
def seaBuildBody (env : SEAEnv) (opts : SEABuildOptions) (st : BuilderState) :
    Except SEAErr (String × Nat) × BuilderState :=
  if canUseSEA env opts.nodeVersion = false then
    (.error (.capability ("Node.js " ++ opts.nodeVersion ++
      " does not support SEA or SEA is not available")), st)
  else
    let st := { st with tempDirExists := true }
    let _config := createSEAConfig env (seaBuilderTempDir env.cwd) opts
    match env.writeFileErr with
    | some m => (.error (.io m), st)
    | none =>
      if env.blobExitCode != 0 then
        (.error (.tool ("Failed to generate SEA blob: " ++ env.blobStderr)), st)
      else
        match env.copyErr with
        | some m => (.error (.io m), st)
        | none =>
          if env.postjectExitCode != 0 then
            (.error (.tool ("Failed to inject blob: " ++ env.postjectStderr)), st)
          else
            match env.renameErr with
            | some m => (.error (.io m), st)
            | none =>
              match env.statErr with
              | some m => (.error (.io m), st)
              | none => (.ok (opts.output, env.statSize), st)

/-- `SEABuilder.build`: run the try-block, turn its outcome into a
`SEABuildResult` (catch), and unconditionally run cleanup (finally). -/
def seaBuild (env : SEAEnv) (opts : SEABuildOptions) (st : BuilderState) :
    SEABuildResult × BuilderState :=
  let bodyOut := seaBuildBody env opts st
  let stFinal := cleanupState env bodyOut.2
  match bodyOut.1 with
  | .ok (p, sz) =>
    ({ success := true, outputPath := p, size := sz, buildTime := 0
       warnings := [], errors := [] }, stFinal)
  | .error e =>
    ({ success := false, outputPath := "", size := 0, buildTime := 0
       warnings := [], errors := [e.message] }, stFinal)

/-- Observation: did the pipeline body abort with the step-1 capability
error (as opposed to succeeding or failing at a later step)? -/
def isCapabilityAbort : Except SEAErr (String × Nat) → Bool
  | .error (.capability _) => true
  | _ => false

/-! ## hybrid-builder: strategy decision engine and orchestrator -/

inductive ForceMode where
  | sea
  | traditional
  | auto
deriving DecidableEq, Repr, BEq

inductive BuildMode where
  | sea
  | traditional
deriving DecidableEq, Repr, BEq

structure HybridBuildOptions where
  entrypoint : String
  output : String
  targets : List Target
  assets : Option (List String)
  useSnapshot : Option Bool
  useCodeCache : Option Bool
  forceBuildMode : Option ForceMode
  crossCompile : Option Bool
  hasComplexRequires : Option Bool
  signBinary : Option Bool
deriving DecidableEq, Repr

structure BuildDecision where
  target : Target
  buildMode : BuildMode
  reason : String
  canUseSEA : Bool
  shouldUseSEA : Bool
deriving DecidableEq, Repr

/-- `HybridBuilder.decideBuildStrategy`: validation first, then the forced
mode, then SEA availability, then the strategy table. -/
def decideBuildStrategy (env : SEAEnv) (target : Target) (options : HybridBuildOptions) :
    BuildDecision :=
  let validation := validateTarget target
  if validation.valid = false then
    { target := target
      buildMode := .traditional
      reason := "Target validation failed: " ++ validation.reason.getD "undefined"
      canUseSEA := false
      shouldUseSEA := false }
  else
    match options.forceBuildMode with
    | some ForceMode.sea =>
      let canUse := canUseSEA env target.nodeRange
      { target := target
        buildMode := .sea
        reason := "User forced sea mode"
        canUseSEA := canUse
        shouldUseSEA := canUse }
    | some ForceMode.traditional =>
      let canUse := canUseSEA env target.nodeRange
      { target := target
        buildMode := .traditional
        reason := "User forced traditional mode"
        canUseSEA := canUse
        shouldUseSEA := false }
    | _ =>
      let canUse := canUseSEA env target.nodeRange
      if canUse = false then
        { target := target
          buildMode := .traditional
          reason := "Node.js " ++ target.nodeRange ++ " does not support SEA"
          canUseSEA := false
          shouldUseSEA := false }
      else
        let strategy := getBuildStrategy target.nodeRange
          { crossCompile := options.crossCompile
            hasComplexRequires := options.hasComplexRequires
            hasAssets := some (decide (0 < (options.assets.getD []).length)) }
        let modeAndReason : BuildMode × String :=
          match strategy with
          | .sea => (.sea, "Optimal for simple projects with stable SEA support")
          | .traditional => (.traditional, "Required for complex projects or cross-compilation")
          | .hybrid =>
            if (getNodeVersionInfo target.nodeRange).stableSEA then
              (.sea, "Using SEA for better performance (hybrid mode)")
            else
              (.traditional, "Using traditional PKG for reliability (hybrid mode)")
        { target := target
          buildMode := modeAndReason.1
          reason := modeAndReason.2
          canUseSEA := canUse
          shouldUseSEA := modeAndReason.1 == BuildMode.sea }

/-- `HybridBuilder.generateTargetOutput`. -/
def generateTargetOutput (target : Target) (baseOutput : String) : String :=
  let ext := if target.platform == "win" then ".exe" else ""
  let baseName := basenameStr baseOutput (extnameStr baseOutput)
  let dir := dirnameStr baseOutput
  pathJoin dir (baseName ++ "-" ++ target.nodeRange ++ "-" ++ target.platform ++
    "-" ++ target.arch ++ ext)

structure ResultEntry where
  target : Target
  buildMode : BuildMode
  result : SEABuildResult
  outputPath : String
deriving DecidableEq, Repr

/-- `HybridBuilder.buildSingleTarget`: dispatch on the decided mode; the
SEA path calls `SEABuilder.build` (whose external behaviour for that call
is given by `envOf`), the traditional path returns the source's placeholder
failure result. -/
def buildSingleTarget (envOf : SEABuildOptions → SEAEnv) (decision : BuildDecision)
    (options : HybridBuildOptions) (st : BuilderState) : ResultEntry × BuilderState :=
  let targetOutput := generateTargetOutput decision.target options.output
  match decision.buildMode with
  | .sea =>
    let seaOptions : SEABuildOptions :=
      { entrypoint := options.entrypoint
        output := targetOutput
        nodeVersion := decision.target.nodeRange
        platform := decision.target.platform
        arch := decision.target.arch
        assets := options.assets
        useSnapshot := options.useSnapshot
        useCodeCache := options.useCodeCache
        signBinary := options.signBinary }
    let built := seaBuild (envOf seaOptions) seaOptions st
    ({ target := decision.target
       buildMode := .sea
       result := built.1
       outputPath := built.1.outputPath }, built.2)
  | .traditional =>
    ({ target := decision.target
       buildMode := .traditional
       result :=
         { success := false, outputPath := targetOutput, size := 0, buildTime := 0
           warnings := []
           errors := ["Traditional PKG build not yet integrated in hybrid builder"] }
       outputPath := targetOutput }, st)

/-- The per-target loop of `HybridBuilder.build`: collect each target's
result and, for failing targets, append their errors to the aggregate
error list. A target's failure never stops the loop. -/
def hybridLoop (envOf : SEABuildOptions → SEAEnv) (options : HybridBuildOptions) :
    List BuildDecision → BuilderState → List ResultEntry × List String × BuilderState
  | [], st => ([], [], st)
  | d :: rest, st =>
    let step := buildSingleTarget envOf d options st
    let tail := hybridLoop envOf options rest step.2
    let errs := if step.1.result.success then tail.2.1 else step.1.result.errors ++ tail.2.1
    (step.1 :: tail.1, errs, tail.2.2)

structure HybridBuildResult where
  success : Bool
  results : List ResultEntry
  totalTime : Nat
  warnings : List String
  errors : List String
deriving DecidableEq, Repr

/-- `HybridBuilder.build`: decide a strategy for every requested target,
build each in declaration order, and aggregate. `denv` is the environment
consulted by the decision phase's `canUseSEA` probes; `envOf` gives the
external behaviour of each SEA build invocation. -/
def hybridBuild (denv : SEAEnv) (envOf : SEABuildOptions → SEAEnv)
    (options : HybridBuildOptions) : HybridBuildResult :=
  let decisions := options.targets.map (fun t => decideBuildStrategy denv t options)
  let loopOut := hybridLoop envOf options decisions { tempDirExists := false }
  let results := loopOut.1
  let successCount := results.countP (fun r => r.result.success)
  { success := successCount == results.length
    results := results
    totalTime := 0
    warnings := []
    errors := loopOut.2.1 }

/-! ## Concrete instances used by witnesses and counterexamples -/

/-- An environment in which every external operation of the pipeline
succeeds and the running node advertises the SEA config flag. -/
def goodEnv : SEAEnv :=
  { cwd := "/proj"
    helpHasSEAConfigFlag := true
    fsExists := fun _ => true
    relative := fun _ s => s
    writeFileErr := none
    blobExitCode := 0
    blobStderr := ""
    copyErr := none
    postjectExitCode := 0
    postjectStderr := ""
    renameErr := none
    statErr := none
    statSize := 1000
    rmErr := none }

/-- Like `goodEnv`, except that the cleanup `fs.rm` fails (its error is
swallowed by the source's catch). -/
def rmFailEnv : SEAEnv :=
  { goodEnv with rmErr := some "EACCES: permission denied" }

def opts20 : SEABuildOptions :=
  { entrypoint := "app.js", output := "dist/app", nodeVersion := "node20"
    platform := "linux", arch := "x64", assets := none, useSnapshot := none
    useCodeCache := none, signBinary := none }

def opts21 : SEABuildOptions := { opts20 with nodeVersion := "node21" }

def opts22 : SEABuildOptions := { opts20 with nodeVersion := "node22" }

def st0 : BuilderState := { tempDirExists := false }

def tgtNode18 : Target := { nodeRange := "node18", platform := "linux", arch := "x64" }

def tgtNode21 : Target := { nodeRange := "node21", platform := "linux", arch := "x64" }

def tgtNode7 : Target := { nodeRange := "node7", platform := "linux", arch := "x64" }

def baseHybridOpts : HybridBuildOptions :=
  { entrypoint := "app.js", output := "dist/app", targets := [], assets := none
    useSnapshot := none, useCodeCache := none, forceBuildMode := none
    crossCompile := none, hasComplexRequires := none, signBinary := none }

def optsForcedSEA : HybridBuildOptions :=
  { baseHybridOpts with targets := [tgtNode18], forceBuildMode := some ForceMode.sea }

def optsForcedSEACross : HybridBuildOptions :=
  { baseHybridOpts with
    targets := [tgtNode21]
    forceBuildMode := some ForceMode.sea
    crossCompile := some true }

def wOpts : HybridBuildOptions :=
  { baseHybridOpts with targets := [tgtNode21, tgtNode7] }

def wEnvOf : SEABuildOptions → SEAEnv := fun _ => goodEnv

/-- C2 counterexample: a run of `SEABuilder.build` for node21 in which
every pipeline step succeeds but the cleanup's `fs.rm` fails (its error
swallowed by the source's catch-ignore) returns normally — with
`success = true` — while the temporary working directory still exists
after `build` returns; so "the temporary working directory does not exist
after assemble returns" is false. -/
theorem cleanupRmFailureCounterexample :
    (seaBuild rmFailEnv opts21 st0).2.tempDirExists = true
    ∧ (seaBuild rmFailEnv opts21 st0).1.success = true := by decide

/-- C2 amended: for every invocation of `SEABuilder.build`, whether it
succeeds or any step 1-8 throws, the cleanup (the `fs.rm` of the
temporary working directory, with its own errors swallowed) executes
before `build` returns; whenever that removal itself succeeds, the
temporary working directory does not exist after `build` returns. -/
theorem seaCleanupAlwaysRuns (env : SEAEnv) (opts : SEABuildOptions) (st : BuilderState) :
    (seaBuild env opts st).2 = cleanupState env (seaBuildBody env opts st).2
    ∧ (env.rmErr = none → (seaBuild env opts st).2.tempDirExists = false) := by
  have h1 : (seaBuild env opts st).2 = cleanupState env (seaBuildBody env opts st).2 := by
    unfold seaBuild
    rcases seaBuildBody env opts st with ⟨r, st2⟩
    rcases r with e | v
    · rfl
    · obtain ⟨p, sz⟩ := v
      rfl
  refine ⟨h1, fun hrm => ?_⟩
  rw [h1]
  unfold cleanupState
  rw [hrm]

/-- C2 witness: in an environment whose cleanup `fs.rm` succeeds, a
concrete build leaves no temporary working directory behind. -/
theorem seaCleanupAlwaysRunsWitness :
    goodEnv.rmErr = none ∧ (seaBuild goodEnv opts21 st0).2.tempDirExists = false := by
  have h := seaCleanupAlwaysRuns goodEnv opts21 st0
  exact ⟨by decide, h.2 (by decide)⟩

/-- C3 counterexample: two distinct invocations of `SEABuilder.build`
(here two builds for different targets, node21 and node22, exactly as in
one Orchestrator batch) use the SAME temporary working directory, the
constructor-fixed `<cwd>/.pkg-temp`; the claim that the directories are
distinct is false. -/
theorem tempDirSharedCounterexample :
    opts21 ≠ opts22
    ∧ tempDirUsed "/proj" opts21 = tempDirUsed "/proj" opts22
    ∧ tempDirUsed "/proj" opts21 = "/proj/.pkg-temp" := by decide

/-- C3 amended: every invocation of `SEABuilder.build` in a process with
working directory `cwd` uses the one constructor-assigned temporary
directory `cwd/.pkg-temp`, independent of the build options; in
particular any two invocations share it. -/
theorem tempDirConstantPerProcess (cwd : String) (o o' : SEABuildOptions) :
    tempDirUsed cwd o = pathJoin cwd ".pkg-temp" ∧ tempDirUsed cwd o = tempDirUsed cwd o' :=
  ⟨rfl, rfl⟩

/-- C4 counterexample: for version node20, `getSEACapabilities` reports
native SEA available (`hasNativeSEA = true`), yet `SEABuilder.build`
aborts at its initial capability check even in an environment where every
external operation succeeds — so the abort condition is not
`hasNativeSEA = false` as claimed. -/
theorem capabilityCheckCounterexample :
    (getSEACapabilities "node20").hasNativeSEA = true
    ∧ isCapabilityAbort (seaBuildBody goodEnv opts20 st0).1 = true
    ∧ (seaBuild goodEnv opts20 st0).1.success = false := by decide

/-- When the capability check fails, the pipeline body aborts with the
capability error. -/
theorem seaBodyCapabilityWhenUnusable (env : SEAEnv) (opts : SEABuildOptions)
    (st : BuilderState) (h : canUseSEA env opts.nodeVersion = false) :
    isCapabilityAbort (seaBuildBody env opts st).1 = true := by
  unfold seaBuildBody
  simp [h, isCapabilityAbort]

/-- When the capability check passes, no later pipeline step produces a
capability abort: the body proceeds past step 1. -/
theorem seaBodyNoCapabilityWhenUsable (env : SEAEnv) (opts : SEABuildOptions)
    (st : BuilderState) (h : canUseSEA env opts.nodeVersion = true) :
    isCapabilityAbort (seaBuildBody env opts st).1 = false := by
  unfold seaBuildBody
  rw [if_neg (by simp [h])]
  cases hw : env.writeFileErr <;> by_cases hb : env.blobExitCode = 0 <;>
    cases hc : env.copyErr <;> by_cases hp : env.postjectExitCode = 0 <;>
    cases hr : env.renameErr <;> cases hs : env.statErr <;>
    simp [hw, hb, hc, hp, hr, hs, isCapabilityAbort]

/-- C4 amended: `SEABuilder.build` aborts at its initial capability check
if and only if `canUseSEA` is false, i.e. iff the version lacks *stable*
SEA support (`hasStableSEA`) or the running node does not advertise
`--experimental-sea-config`; for every version and environment passing
that stricter check the pipeline proceeds past step 1. -/
theorem capabilityAbortIffNotStable (env : SEAEnv) (opts : SEABuildOptions)
    (st : BuilderState) :
    isCapabilityAbort (seaBuildBody env opts st).1 = true
      ↔ canUseSEA env opts.nodeVersion = false := by
  cases h : canUseSEA env opts.nodeVersion
  · rw [seaBodyCapabilityWhenUnusable env opts st h]
    simp
  · rw [seaBodyNoCapabilityWhenUsable env opts st h]
    simp

/-- C5 counterexample: with `forcedMode = sea` on the valid target
node18-linux-x64 (which cannot use SEA), the decision has `mode = sea`
(native) yet `shouldUseSEA = false`, so "shouldUseNative = true iff the
final mode is native" is false. -/
theorem shouldUseSEACounterexample :
    (decideBuildStrategy goodEnv tgtNode18 optsForcedSEA).buildMode = BuildMode.sea
    ∧ (decideBuildStrategy goodEnv tgtNode18 optsForcedSEA).shouldUseSEA = false
    ∧ ¬((decideBuildStrategy goodEnv tgtNode18 optsForcedSEA).shouldUseSEA = true
        ↔ (decideBuildStrategy goodEnv tgtNode18 optsForcedSEA).buildMode = BuildMode.sea) := by
  decide

/-- C5 amended: for every target, options and forced mode, the decision's
`shouldUseSEA` is true iff the final mode is native AND `canUseSEA` is
true (the forced-native-without-capability case separates the two). -/
theorem shouldUseSEAIffModeAndCapability (env : SEAEnv) (target : Target)
    (options : HybridBuildOptions) :
    (decideBuildStrategy env target options).shouldUseSEA =
      ((decideBuildStrategy env target options).buildMode == BuildMode.sea
        && (decideBuildStrategy env target options).canUseSEA) := by
  unfold decideBuildStrategy
  by_cases hv : (validateTarget target).valid = false
  · simp [hv]
  · rw [if_neg hv]
    cases hf : options.forceBuildMode with
    | none =>
      simp only
      by_cases hc : canUseSEA env target.nodeRange = false
      · simp [hc]
      · rw [if_neg hc]
        simp only [Bool.not_eq_false] at hc
        simp [hc]
    | some f =>
      cases f with
      | sea => rfl
      | traditional => rfl
      | auto =>
        simp only
        by_cases hc : canUseSEA env target.nodeRange = false
        · simp [hc]
        · rw [if_neg hc]
          simp only [Bool.not_eq_false] at hc
          simp [hc]

/-- C6: a target that fails validation always yields a traditional-mode
decision with `canUseSEA = false`, and the reason carries the validation
failure text, regardless of all other options — in particular even when
`forcedMode = sea` is supplied. -/
theorem validationFailurePrecedence (env : SEAEnv) (target : Target)
    (options : HybridBuildOptions) (h : (validateTarget target).valid = false) :
    (decideBuildStrategy env target options).buildMode = BuildMode.traditional
    ∧ (decideBuildStrategy env target options).canUseSEA = false
    ∧ (decideBuildStrategy env target options).reason =
        "Target validation failed: " ++ (validateTarget target).reason.getD "undefined" := by
  unfold decideBuildStrategy
  simp [h]

/-- C6 witness: the unsupported target node7-linux-x64 with
`forcedMode = sea` still decides traditional with `canUseSEA = false`. -/
theorem validationFailurePrecedenceWitness :
    (validateTarget tgtNode7).valid = false
    ∧ (decideBuildStrategy goodEnv tgtNode7
        { optsForcedSEA with targets := [tgtNode7] }).buildMode = BuildMode.traditional
    ∧ (decideBuildStrategy goodEnv tgtNode7
        { optsForcedSEA with targets := [tgtNode7] }).canUseSEA = false := by
  have h := validationFailurePrecedence goodEnv tgtNode7
    { optsForcedSEA with targets := [tgtNode7] } (by decide)
  exact ⟨by decide, h.1, h.2.1⟩

/-- With `crossCompile = true` the strategy table never selects SEA. -/
theorem getBuildStrategyCross (nodeRange : String) (opts : StrategyOpts)
    (h : opts.crossCompile = some true) :
    getBuildStrategy nodeRange opts = BuildStrategyKind.traditional := by
  unfold getBuildStrategy
  rw [h]
  by_cases hs : (getNodeVersionInfo nodeRange).isSupported = false
  · simp [hs]
  · simp [hs]

/-- C7 counterexample: a target with `crossCompile = true` but
`forcedMode = sea` yields `mode = sea` (native), so the claim that
cross-compiling targets never get native mode — quantified over all of
decide's arguments — is false. -/
theorem crossCompileForcedSeaCounterexample :
    optsForcedSEACross.crossCompile = some true
    ∧ (decideBuildStrategy goodEnv tgtNode21 optsForcedSEACross).buildMode = BuildMode.sea := by
  decide

/-- C7 amended: for every target and options with `crossCompile = true`,
as long as the user did not explicitly force SEA mode, the decision never
has native mode: it is always traditional. -/
theorem crossCompileNeverNativeUnlessForced (env : SEAEnv) (target : Target)
    (options : HybridBuildOptions) (hcc : options.crossCompile = some true)
    (hforce : options.forceBuildMode ≠ some ForceMode.sea) :
    (decideBuildStrategy env target options).buildMode = BuildMode.traditional := by
  unfold decideBuildStrategy
  by_cases hv : (validateTarget target).valid = false
  · simp [hv]
  · rw [if_neg hv]
    cases hf : options.forceBuildMode with
    | none =>
      simp only
      by_cases hc : canUseSEA env target.nodeRange = false
      · simp [hc]
      · rw [if_neg hc,
          getBuildStrategyCross target.nodeRange
            { crossCompile := options.crossCompile
              hasComplexRequires := options.hasComplexRequires
              hasAssets := some (decide (0 < (options.assets.getD []).length)) } hcc]
    | some f =>
      cases f with
      | sea => exact absurd hf hforce
      | traditional => rfl
      | auto =>
        simp only
        by_cases hc : canUseSEA env target.nodeRange = false
        · simp [hc]
        · rw [if_neg hc,
            getBuildStrategyCross target.nodeRange
              { crossCompile := options.crossCompile
                hasComplexRequires := options.hasComplexRequires
                hasAssets := some (decide (0 < (options.assets.getD []).length)) } hcc]

/-- C7 witness: node21-linux-x64 with `crossCompile = true` and no forced
mode decides traditional. -/
theorem crossCompileNeverNativeUnlessForcedWitness :
    (decideBuildStrategy goodEnv tgtNode21
      { baseHybridOpts with targets := [tgtNode21], crossCompile := some true }).buildMode
      = BuildMode.traditional :=
  crossCompileNeverNativeUnlessForced goodEnv tgtNode21
    { baseHybridOpts with targets := [tgtNode21], crossCompile := some true }
    (by decide) (by decide)

/-- C9: every version the Extended Version Resolver treats as extended
(i.e. outside the legacy fetch table) and flagged supported has exactly
one entry in the fixed fallback table, that entry's target version is
itself supported, and the resolver's fallback fails with the
fallback-exhausted error only when the requested version has no fallback
entry. -/
theorem fallbackTableComplete (v : String) (hext : isExtendedVersion v = true)
    (_hsupp : (getNodeVersionInfo v).isSupported = true) :
    fallbackMap.countP (fun p => p.1 == v) = 1
    ∧ (∀ f, lookupFallback v = some f → (getNodeVersionInfo f).isSupported = true)
    ∧ (∀ legacyNeed : String → String,
        isFallbackExhausted (fallbackToClosestVersion legacyNeed v) = true
          ↔ lookupFallback v = none) := by
  have hv : v = "node20" ∨ v = "node21" ∨ v = "node22" := by
    have hmem : v ∈ EXTENDED_NODE_VERSIONS.map Prod.fst := by
      simpa [isExtendedVersion] using hext
    simpa [EXTENDED_NODE_VERSIONS] using hmem
  rcases hv with h | h | h <;> subst h
  · refine ⟨by decide, fun f hf => ?_, fun legacyNeed => ?_⟩
    · have hred : lookupFallback "node20" = some "node18" := by decide
      rw [hred] at hf
      obtain rfl : "node18" = f := Option.some_inj.mp hf
      decide
    · have hred : lookupFallback "node20" = some "node18" := by decide
      simp [fallbackToClosestVersion, hred, isFallbackExhausted]
  · refine ⟨by decide, fun f hf => ?_, fun legacyNeed => ?_⟩
    · have hred : lookupFallback "node21" = some "node18" := by decide
      rw [hred] at hf
      obtain rfl : "node18" = f := Option.some_inj.mp hf
      decide
    · have hred : lookupFallback "node21" = some "node18" := by decide
      simp [fallbackToClosestVersion, hred, isFallbackExhausted]
  · refine ⟨by decide, fun f hf => ?_, fun legacyNeed => ?_⟩
    · have hred : lookupFallback "node22" = some "node18" := by decide
      rw [hred] at hf
      obtain rfl : "node18" = f := Option.some_inj.mp hf
      decide
    · have hred : lookupFallback "node22" = some "node18" := by decide
      simp [fallbackToClosestVersion, hred, isFallbackExhausted]

/-- C9 witness: the extended supported version node21 has exactly one
fallback entry, and its target node18 is itself supported. -/
theorem fallbackTableCompleteWitness :
    fallbackMap.countP (fun p => p.1 == "node21") = 1
    ∧ (getNodeVersionInfo "node18").isSupported = true := by
  have h := fallbackTableComplete "node21" (by decide) (by decide)
  exact ⟨h.1, h.2.1 "node18" (by decide)⟩

/-- C10: the sentinel tag `latest` passes `enhancedIsValidNodeRange` yet
`getNodeVersionInfo` flags it unsupported (its numeric major parses to
`NaN`, modelled as `none`), so `validateTarget` rejects every target with
runtime version `latest` for every platform and architecture. -/
theorem latestSentinelRejected (p a : String) :
    enhancedIsValidNodeRange "latest" = true
    ∧ (getNodeVersionInfo "latest").isSupported = false
    ∧ jsParseInt (jsReplaceOnce "node" (getNodeVersionInfo "latest").version) = none
    ∧ (validateTarget { nodeRange := "latest", platform := p, arch := a }).valid = false := by
  refine ⟨by decide, by decide, by decide, ?_⟩
  have h : (getNodeVersionInfo "latest").isSupported = false := by decide
  unfold validateTarget
  simp [h]

/-- The per-target loop yields exactly one result entry per decision. -/
theorem hybridLoopLength (envOf : SEABuildOptions → SEAEnv) (options : HybridBuildOptions)
    (ds : List BuildDecision) :
    ∀ st : BuilderState, (hybridLoop envOf options ds st).1.length = ds.length := by
  induction ds with
  | nil => intro st; rfl
  | cons d rest ih =>
    intro st
    simp [hybridLoop, ih]

/-- Every failing entry's errors end up in the loop's aggregate error
list. -/
theorem hybridLoopErrorsMem (envOf : SEABuildOptions → SEAEnv) (options : HybridBuildOptions)
    (ds : List BuildDecision) :
    ∀ (st : BuilderState) (r : ResultEntry), r ∈ (hybridLoop envOf options ds st).1 →
      r.result.success = false →
      ∀ e ∈ r.result.errors, e ∈ (hybridLoop envOf options ds st).2.1 := by
  induction ds with
  | nil =>
    intro st r hr
    simp [hybridLoop] at hr
  | cons d rest ih =>
    intro st r hr hfail e he
    have hr' : r = (buildSingleTarget envOf d options st).1
        ∨ r ∈ (hybridLoop envOf options rest (buildSingleTarget envOf d options st).2).1 := by
      simpa [hybridLoop] using hr
    show e ∈ (hybridLoop envOf options (d :: rest) st).2.1
    have hgoal : (hybridLoop envOf options (d :: rest) st).2.1 =
        (if (buildSingleTarget envOf d options st).1.result.success then
          (hybridLoop envOf options rest (buildSingleTarget envOf d options st).2).2.1
        else (buildSingleTarget envOf d options st).1.result.errors ++
          (hybridLoop envOf options rest (buildSingleTarget envOf d options st).2).2.1) := rfl
    rw [hgoal]
    rcases hr' with h | h
    · subst h
      rw [if_neg (by simp [hfail])]
      exact List.mem_append_left _ he
    · have htail := ih (buildSingleTarget envOf d options st).2 r h hfail e he
      by_cases hs : (buildSingleTarget envOf d options st).1.result.success
      · rw [if_pos hs]
        exact htail
      · rw [if_neg hs]
        exact List.mem_append_right _ htail

/-- C1: for every batch, `HybridBuilder.build` returns exactly one result
entry per requested target (a single target's failure never aborts the
batch), reports aggregate `success = true` iff every per-target result
succeeded (hence `success = false` whenever at least one target failed),
and each failed target's errors appear in the aggregate error list. -/
theorem orchestratorBuildAggregate (denv : SEAEnv) (envOf : SEABuildOptions → SEAEnv)
    (options : HybridBuildOptions) :
    ((hybridBuild denv envOf options).results.length = options.targets.length)
    ∧ ((hybridBuild denv envOf options).success = true ↔
        ∀ r ∈ (hybridBuild denv envOf options).results, r.result.success = true)
    ∧ ((∃ r ∈ (hybridBuild denv envOf options).results, r.result.success = false) →
        (hybridBuild denv envOf options).success = false)
    ∧ (∀ r ∈ (hybridBuild denv envOf options).results, r.result.success = false →
        ∀ e ∈ r.result.errors, e ∈ (hybridBuild denv envOf options).errors) := by
  have hres : (hybridBuild denv envOf options).results =
      (hybridLoop envOf options
        (options.targets.map (fun t => decideBuildStrategy denv t options))
        { tempDirExists := false }).1 := rfl
  have herr : (hybridBuild denv envOf options).errors =
      (hybridLoop envOf options
        (options.targets.map (fun t => decideBuildStrategy denv t options))
        { tempDirExists := false }).2.1 := rfl
  have hsucc : (hybridBuild denv envOf options).success =
      ((hybridBuild denv envOf options).results.countP (fun r => r.result.success)
        == (hybridBuild denv envOf options).results.length) := rfl
  have hlen : (hybridBuild denv envOf options).results.length = options.targets.length := by
    rw [hres, hybridLoopLength]
    exact List.length_map _ _
  have hiff : (hybridBuild denv envOf options).success = true ↔
      ∀ r ∈ (hybridBuild denv envOf options).results, r.result.success = true := by
    rw [hsucc, beq_iff_eq]
    exact List.countP_eq_length
  refine ⟨hlen, hiff, ?_, ?_⟩
  · rintro ⟨r, hr, hfail⟩
    cases hs : (hybridBuild denv envOf options).success
    · rfl
    · exact absurd ((hiff.mp hs) r hr) (by simp [hfail])
  · intro r hr hfail e he
    rw [herr]
    rw [hres] at hr
    exact hybridLoopErrorsMem envOf options _ _ r hr hfail e he

/-- C1 witness: a concrete batch of two targets (node21 succeeding via
SEA, node7 failing validation and falling to the traditional placeholder)
yields two result entries and aggregate `success = false`. -/
theorem orchestratorBuildAggregateWitness :
    (hybridBuild goodEnv wEnvOf wOpts).results.length = 2
    ∧ (hybridBuild goodEnv wEnvOf wOpts).success = false := by
  have h := orchestratorBuildAggregate goodEnv wEnvOf wOpts
  refine ⟨h.1.trans (by decide), ?_⟩
  refine h.2.2.1 ?_
  decide
